import Mathlib

/-!
Verification of the stance module (`pymanoid/stance.py`): contact-set data
model, static-equilibrium polygon cache and signed-distance query, pendular
COM acceleration cone, ZMP support area, and supporting-wrench search.

External collaborators of the module (the `ContactSet` superclass, the
`pypoman` projection routines, the `sim`, `body`, `contact` and `misc`
modules) are not part of the verified source slice; they are modelled from
the specification, either as explicit function parameters or as definitions
whose doc comment starts with `Modelled from the spec:`.
-/

noncomputable section

/-- Error taxonomy of the specification (§7): degenerate contact geometry,
empty contact set, failed polytope projection, stale derived state, and
infeasible wrench distribution. -/
inductive StanceError where
  | DegenerateGeometry
  | InsufficientContacts
  | ProjectionFailed
  | StaleState
  | Infeasible
deriving DecidableEq, Repr

/-- Vector in ℝ³, mirroring the (3,) numpy arrays used throughout. -/
structure Vec3 where
  x : ℝ
  y : ℝ
  z : ℝ

/-- Componentwise sum of two 3D vectors (numpy `+`). -/
def Vec3.add (a b : Vec3) : Vec3 := ⟨a.x + b.x, a.y + b.y, a.z + b.z⟩

/-- Cross product of two 3D vectors (numpy `cross`). -/
def cross (a b : Vec3) : Vec3 :=
  ⟨a.y * b.z - a.z * b.y, a.z * b.x - a.x * b.z, a.x * b.y - a.y * b.x⟩

/-- Dot product of two 3D vectors (numpy `dot`). -/
def dot3 (a b : Vec3) : ℝ := a.x * b.x + a.y * b.y + a.z * b.z

/-- Modelled from the spec: the gravity vector supplied by the simulation
environment (`sim` module, not under the verified slice): it points along
−z with the positive gravity constant 9.81 used by `stance.py` itself in
`compute_zmp_support_area` and `find_static_supporting_wrenches`. -/
def gravityVec : Vec3 := ⟨0, 0, -9.81⟩

/-- Positive gravity constant, written `g = -gravity[2]` in the source. -/
def gconst : ℝ := -gravityVec.z

/-- Modelled from the spec: a planar contact patch (`contact` module, not
under the verified slice): shape polygon, friction coefficient, position
and roll-pitch-yaw orientation (§3, §6). -/
structure Contact where
  shape : List (ℝ × ℝ)
  friction : ℝ
  pos : Vec3
  rpy : Vec3

/-- Modelled from the spec: persistence record of one contact, carrying the
`shape`, `friction`, `pos` and `rpy` fields of the JSON representation
(§6, `Contact.dict_repr`). -/
structure ContactRecord where
  shape : List (ℝ × ℝ)
  friction : ℝ
  pos : Vec3
  rpy : Vec3

/-- Modelled from the spec: `Contact.dict_repr` (external `contact` module)
serializes exactly the shape, friction, position and orientation fields. -/
def Contact.dict_repr (c : Contact) : ContactRecord :=
  ⟨c.shape, c.friction, c.pos, c.rpy⟩

/-- Contact-from-dict helper `cfd` in `Stance.load`: rebuilds a contact from
the `shape`, `friction`, `pos` and `rpy` keys of the record. -/
def cfd (r : ContactRecord) : Contact :=
  ⟨r.shape, r.friction, r.pos, r.rpy⟩

/-- Modelled from the spec: a point mass (`body` module, not under the
verified slice): a 3D position `p` plus a scalar mass (§3). -/
structure PointMass where
  p : Vec3
  mass : ℝ

/-- Modelled from the spec: rebuilding the COM point mass from a persistence
record; only the position is persisted (§6), so the mass is not restored. -/
def pointMassFromRecord (p : Vec3) : PointMass := ⟨p, 0⟩

/-- Stance state: COM target, auxiliary DOF targets, the four optional
contact role slots, and the cached static-equilibrium-polygon artifacts
(half-space form, per-row norms, vertex list). In the Python source the
latter two attributes only come into existence together with `sep_hrep`
inside `compute_static_equilibrium_polygon`; they are modelled as `Option`
fields that are `none` until that call. -/
structure Stance where
  com : PointMass
  dof_tasks : List (ℕ × ℝ)
  left_foot : Option Contact
  left_hand : Option Contact
  right_foot : Option Contact
  right_hand : Option Contact
  sep_hrep : Option (List (ℝ × ℝ) × List ℝ)
  sep_norm : Option (List ℝ)
  sep_vertices : Option (List (ℝ × ℝ))

/-- Constructor `Stance.__init__`: stores the COM and the four optional
contacts, empties the DOF task map, and sets `sep_hrep` to `None` (with the
derived `sep_norm` and `sep_vertices` attributes not yet existing). -/
def Stance.init (com : PointMass) (left_foot right_foot left_hand right_hand :
    Option Contact) : Stance :=
  { com := com
    dof_tasks := []
    left_foot := left_foot
    left_hand := left_hand
    right_foot := right_foot
    right_hand := right_hand
    sep_hrep := none
    sep_norm := none
    sep_vertices := none }

/-- Engaged contacts of the stance, in the source's order:
`filter(None, [left_foot, left_hand, right_foot, right_hand])`. -/
def Stance.contacts (st : Stance) : List Contact :=
  [st.left_foot, st.left_hand, st.right_foot, st.right_hand].filterMap id

/-- Persistence record of a whole stance (§6): optional COM position and one
optional record per contact role. -/
structure StanceRecord where
  com : Option Vec3
  left_foot : Option ContactRecord
  right_foot : Option ContactRecord
  left_hand : Option ContactRecord
  right_hand : Option ContactRecord

/-- Method `Stance.save`: writes the COM position (`{"pos": com.p}`) and the
`dict_repr` of each engaged contact role; absent roles are omitted. -/
def Stance.save (st : Stance) : StanceRecord :=
  { com := some st.com.p
    left_foot := st.left_foot.map Contact.dict_repr
    right_foot := st.right_foot.map Contact.dict_repr
    left_hand := st.left_hand.map Contact.dict_repr
    right_hand := st.right_hand.map Contact.dict_repr }

/-- Method `Stance.load`: replaces the COM when the record carries one, and
sets each contact role from the record (absent record fields yield `None`).
Other attributes of the stance object are left as they were. -/
def Stance.load (st : Stance) (r : StanceRecord) : Stance :=
  { st with
    com := match r.com with
      | some p => pointMassFromRecord p
      | none => st.com
    left_foot := r.left_foot.map cfd
    right_foot := r.right_foot.map cfd
    left_hand := r.left_hand.map cfd
    right_hand := r.right_hand.map cfd }

/-- Euclidean norm of a row of the half-space matrix A, written
`norm(a)` in the source via the external `misc` module; modelled from the
spec as the Euclidean norm of the 2D row (§4.4). -/
def rowNorm (a : ℝ × ℝ) : ℝ := Real.sqrt (a.1 ^ 2 + a.2 ^ 2)

/-- Modelled from the spec: `ContactSet.compute_static_equilibrium_polygon`
(superclass method, external `contact` module): on an empty contact set it
fails with `InsufficientContacts` (§3, §8); otherwise it returns the
projected vertex list, here abstracted by the projection function `proj`
(the three interchangeable strategies of §4.3). -/
def contactSetSEP (proj : List Contact → List (ℝ × ℝ))
    (cs : List Contact) : Except StanceError (List (ℝ × ℝ)) :=
  if cs.isEmpty then .error .InsufficientContacts else .ok (proj cs)

/-- Method `Stance.compute_static_equilibrium_polygon`: calls the superclass
projection, then caches the half-space form (`compute_polytope_halfspaces`,
external, abstracted by `hs`), the per-row norms, and the vertex list on the
stance. The pair's second component is the updated stance state. -/
def Stance.compute_static_equilibrium_polygon
    (proj : List Contact → List (ℝ × ℝ))
    (hs : List (ℝ × ℝ) → List (ℝ × ℝ) × List ℝ)
    (st : Stance) : Except StanceError (List (ℝ × ℝ)) × Stance :=
  match contactSetSEP proj st.contacts with
  | .error e => (.error e, st)
  | .ok verts =>
      (.ok verts,
        { st with
          sep_hrep := some (hs verts)
          sep_norm := some ((hs verts).1.map rowNorm)
          sep_vertices := some verts })

/-- Row-wise algebraic distances `(b - dot(A, com[:2])) / sep_norm` of
`Stance.dist_to_sep_edge`. -/
def algDists (A : List (ℝ × ℝ)) (b norms : List ℝ) (cx cy : ℝ) : List ℝ :=
  List.zipWith (fun (p : (ℝ × ℝ) × ℝ) n => (p.2 - (p.1.1 * cx + p.1.2 * cy)) / n)
    (A.zip b) norms

/-- Body of `Stance.dist_to_sep_edge`: unpacks the cached half-space form
(`StaleState` when it has not been computed: in Python, unpacking the
initial `None` value fails there), evaluates the normalized algebraic
distances at the horizontal part of the query point, and takes their
minimum (`List.min?` is Python's `min`; an empty row list would mean a
degenerate projected region, reported as `ProjectionFailed`). -/
def distToSepEdgeResult (st : Stance) (q : Vec3) : Except StanceError ℝ :=
  match st.sep_hrep, st.sep_norm with
  | some Ab, some norms =>
      match (algDists Ab.1 Ab.2 norms q.x q.y).min? with
      | some m => .ok m
      | none => .error .ProjectionFailed
  | _, _ => .error .StaleState

/-- Method `Stance.dist_to_sep_edge`, with the (unchanged) stance state
threaded through as the second component. -/
def Stance.dist_to_sep_edge (st : Stance) (q : Vec3) :
    Except StanceError ℝ × Stance :=
  (distToSepEdgeResult st q, st)

/-- Helper `expand_reduced_pendular_cone` nested in
`Stance.compute_pendular_accel_cone`: vertical acceleration `zdd` defaults
to the gravity constant, each reduced-hull vertex `(a, b)` expands to
`(a*(g+zdd), b*(g+zdd), zdd)`, and the gravity vector is prepended. -/
def expand_reduced_pendular_cone (reduced_hull : List (ℝ × ℝ))
    (zdd_max : Option ℝ) : List Vec3 :=
  gravityVec ::
    reduced_hull.map (fun ab =>
      ⟨ab.1 * (gconst + zdd_max.getD gconst),
       ab.2 * (gconst + zdd_max.getD gconst),
       zdd_max.getD gconst⟩)

/-- Rows `B = CWC_O[:, :3] + cross(CWC_O[:, 3:], v)` for one COM sample
point `v`; each row of the contact wrench cone is a (force, couple) pair. -/
def pendularB (cwc : List (Vec3 × Vec3)) (v : Vec3) : List Vec3 :=
  cwc.map (fun r => (r.1).add (cross r.2 v))

/-- Vector `c = dot(B, gravity)` for one COM sample point. -/
def pendularC (cwc : List (Vec3 × Vec3)) (v : Vec3) : List ℝ :=
  (pendularB cwc v).map (fun brow => dot3 brow gravityVec)

/-- Stacked first-two-column matrix `B_2d` over all COM sample points
(`vstack(B_list)` restricted to columns 0 and 1). -/
def pendularB2d (cwc : List (Vec3 × Vec3)) (cvs : List Vec3) : List (ℝ × ℝ) :=
  (cvs.flatMap (pendularB cwc)).map (fun r => (r.x, r.y))

/-- Stacked vector `sigma = c / g` over all COM sample points
(`hstack(c_list)` divided by the gravity constant). -/
def pendularSigma (cwc : List (Vec3 × Vec3)) (cvs : List Vec3) : List ℝ :=
  (cvs.flatMap (pendularC cwc)).map (fun ci => ci / gconst)

/-- Method `Stance.compute_pendular_accel_cone`. `hullFn` abstracts the
external `pypoman.compute_polygon_hull` (its `QhullError` failure is the
`Except Unit` error case, re-raised by the method as a projection failure);
`cwcFn` abstracts the external `ContactSet.compute_wrench_inequalities`
evaluated at the origin. When `com_vertices` is not supplied the COM
position of the stance is the single sample point. On success the raw 2D
reduced hull is returned if `reduced` is true, otherwise its 3D expansion.
The stance state (second component) is never modified. -/
def Stance.compute_pendular_accel_cone
    (hullFn : List (ℝ × ℝ) → List ℝ → Except Unit (List (ℝ × ℝ)))
    (cwcFn : List Contact → List (Vec3 × Vec3))
    (st : Stance) (com_vertices : Option (List Vec3)) (zdd_max : Option ℝ)
    (reduced : Bool) :
    Except StanceError (List (ℝ × ℝ) ⊕ List Vec3) × Stance :=
  (Except.mapError (fun _ => StanceError.ProjectionFailed)
    (Except.map
      (fun reduced_hull =>
        if reduced then Sum.inl reduced_hull
        else Sum.inr (expand_reduced_pendular_cone reduced_hull zdd_max))
      (hullFn
        (pendularB2d (cwcFn st.contacts) (com_vertices.getD [st.com.p]))
        (pendularSigma (cwcFn st.contacts) (com_vertices.getD [st.com.p])))),
    st)

/-- Matrix `crossmat(n)` for the plane normal `n = [0, 0, 1]`, written as a
literal in the source. -/
def crossmat_n : Matrix (Fin 3) (Fin 3) ℝ := !![0, -1, 0; 1, 0, 0; 0, 0, 0]

/-- Matrix `B = vstack([B1, B2])` of `compute_zmp_support_area`, with
`B1 = hstack([com.z * eye(3), crossmat_n])` and
`B2 = hstack([zeros(3), com.p])`, for the COM position `c`. -/
def zmpB (c : Vec3) : Matrix (Fin 4) (Fin 6) ℝ :=
  !![c.z, 0, 0, 0, -1, 0;
     0, c.z, 0, 1, 0, 0;
     0, 0, c.z, 0, 0, 0;
     0, 0, 0, c.x, c.y, c.z]

/-- Equality matrix `C = 1 / (mass * 9.81) * dot(B, G)` of
`compute_zmp_support_area`, for grasp matrix `G` and COM position `c`. -/
def zmpC {n : ℕ} (G : Matrix (Fin 6) (Fin n) ℝ) (c : Vec3) (mass : ℝ) :
    Matrix (Fin 4) (Fin n) ℝ :=
  (1 / (mass * 9.81)) • (zmpB c * G)

/-- Projection matrix `E = (z_zmp - com.z) / (mass * 9.81) * G[:2, :]` of
`compute_zmp_support_area`. -/
def zmpE {n : ℕ} (G : Matrix (Fin 6) (Fin n) ℝ) (c : Vec3)
    (z_zmp mass : ℝ) : Matrix (Fin 2) (Fin n) ℝ :=
  ((z_zmp - c.z) / (mass * 9.81)) •
    G.submatrix (Fin.castLE (by norm_num)) id

/-- Equality right-hand side `d = hstack([com.p, [0]])`. -/
def zmpd (c : Vec3) : Fin 4 → ℝ := ![c.x, c.y, c.z, 0]

/-- Projection offset `f = array([com.x, com.y])`. -/
def zmpf (c : Vec3) : Fin 2 → ℝ := ![c.x, c.y]

/-- Modelled from the spec: the region computed by the external
`pypoman.project_polytope` for the ZMP support-area system (§4.3, §4.6):
the image `{E·x + f}` of the feasible set `{x : F·x ≤ 0, C·x = d}`, with
`F` the block-diagonal stacked contact wrench inequalities, `G` the grasp
matrix, and `C`, `E`, `d`, `f` built by `compute_zmp_support_area` for the
given mass value. -/
def zmpSupportSet {n k : ℕ} (F : Matrix (Fin k) (Fin n) ℝ)
    (G : Matrix (Fin 6) (Fin n) ℝ) (c : Vec3) (z_zmp mass : ℝ) :
    Set (Fin 2 → ℝ) :=
  {y | ∃ x : Fin n → ℝ, (∀ i, F.mulVec x i ≤ 0) ∧
    (zmpC G c mass).mulVec x = zmpd c ∧
    y = (zmpE G c z_zmp mass).mulVec x + zmpf c}

/-- Method `Stance.compute_zmp_support_area`: builds the `(E, f)`, `(F, 0)`
and `(C, d)` systems with the fixed internal mass value 42 and hands them to
the external projection (abstracted by `projFn`, selected by the `method`
string in the source); `graspFn` abstracts the external grasp-matrix
computation at the origin and `ineqFn` the block-diagonal stacking of the
per-contact wrench inequalities. The stance state is never modified. -/
def Stance.compute_zmp_support_area {n k : ℕ}
    (projFn : Matrix (Fin 2) (Fin n) ℝ × (Fin 2 → ℝ) →
      Matrix (Fin k) (Fin n) ℝ × (Fin k → ℝ) →
      Matrix (Fin 4) (Fin n) ℝ × (Fin 4 → ℝ) →
      Except StanceError (List (ℝ × ℝ)))
    (graspFn : List Contact → Matrix (Fin 6) (Fin n) ℝ)
    (ineqFn : List Contact → Matrix (Fin k) (Fin n) ℝ)
    (st : Stance) (plane : Vec3) :
    Except StanceError (List (ℝ × ℝ)) × Stance :=
  (projFn
      (zmpE (graspFn st.contacts) st.com.p plane.z 42, zmpf st.com.p)
      (ineqFn st.contacts, fun _ => 0)
      (zmpC (graspFn st.contacts) st.com.p 42, zmpd st.com.p),
    st)

/-- Target wrench `hstack([array([0., 0., mass * 9.81]), zeros(3)])` of
`Stance.find_static_supporting_wrenches`. -/
def staticWrench (mass : ℝ) : Fin 6 → ℝ := ![0, 0, mass * 9.81, 0, 0, 0]

/-- Method `Stance.find_static_supporting_wrenches`: calls the external
`ContactSet.find_supporting_wrenches` (abstracted by `fsw`, §4.7: it reads
the stance's contacts and may fail with `Infeasible`) with the weight
wrench and the COM position, returning its result unchanged. The stance
state is never modified. -/
def Stance.find_static_supporting_wrenches
    (fsw : (Fin 6 → ℝ) → Vec3 → List Contact →
      Except StanceError (List (Contact × (Fin 6 → ℝ))))
    (st : Stance) :
    Except StanceError (List (Contact × (Fin 6 → ℝ))) × Stance :=
  (fsw (staticWrench st.com.mass) st.com.p st.contacts, st)

/-- Solution set of a stacked 2D system `B_2d · x ≤ sigma`, the polygon
whose vertex representation the external `compute_polygon_hull` returns
(§4.3: the projection engine's output describes exactly this region). -/
def polygonOf (B2d : List (ℝ × ℝ)) (sigma : List ℝ) : Set (ℝ × ℝ) :=
  {ab | ∀ p ∈ B2d.zip sigma, p.1.1 * ab.1 + p.1.2 * ab.2 ≤ p.2}

/-- Reduced (duality-space) feasible region of the pendular acceleration
cone for a list of COM sample points: the solution set of the stacked
system handed to the 2D hull computation. -/
def pendularFeasibleSet (cwc : List (Vec3 × Vec3)) (cvs : List Vec3) :
    Set (ℝ × ℝ) :=
  polygonOf (pendularB2d cwc cvs) (pendularSigma cwc cvs)

/-- Region of 3D acceleration vertices described by
`expand_reduced_pendular_cone` applied to a reduced region: the free-fall
apex (gravity vector) together with the expansion of every reduced-region
point at the chosen vertical acceleration. -/
def expandConeSet (S : Set (ℝ × ℝ)) (zdd_max : Option ℝ) : Set Vec3 :=
  insert gravityVec
    ((fun ab : ℝ × ℝ =>
      Vec3.mk (ab.1 * (gconst + zdd_max.getD gconst))
        (ab.2 * (gconst + zdd_max.getD gconst))
        (zdd_max.getD gconst)) '' S)

/-- Concrete COM point mass used in the concrete evaluations below. -/
def pmW : PointMass := ⟨⟨0, 0, 0⟩, 38⟩

/-- Concrete freshly constructed stance (no contacts engaged). -/
def stV : Stance := Stance.init pmW none none none none

/-- Concrete hull function that succeeds with one reduced-hull vertex. -/
def wHullOk : List (ℝ × ℝ) → List ℝ → Except Unit (List (ℝ × ℝ)) :=
  fun _ _ => .ok [(1, 2)]

/-- Concrete hull function that fails as `qhull` does on degenerate dual
points. -/
def wHullFail : List (ℝ × ℝ) → List ℝ → Except Unit (List (ℝ × ℝ)) :=
  fun _ _ => .error ()

/-- Concrete contact-wrench-cone function with no rows. -/
def wCwc : List Contact → List (Vec3 × Vec3) := fun _ => []

/-- Concrete superclass projection returning no vertices. -/
def wProj : List Contact → List (ℝ × ℝ) := fun _ => []

/-- Concrete half-space computation returning an empty system. -/
def wHs : List (ℝ × ℝ) → List (ℝ × ℝ) × List ℝ := fun _ => ([], [])

/-- Half-space rows of the unit square, used as a concrete computed
equilibrium polygon. -/
def sqA : List (ℝ × ℝ) := [(1, 0), (-1, 0), (0, 1), (0, -1)]

/-- Right-hand sides of the unit-square half-space system. -/
def sqb : List ℝ := [1, 1, 1, 1]

/-- Concrete stance in the state left by
`compute_static_equilibrium_polygon` for the unit-square polygon. -/
def stW : Stance :=
  { com := pmW
    dof_tasks := []
    left_foot := none
    left_hand := none
    right_foot := none
    right_hand := none
    sep_hrep := some (sqA, sqb)
    sep_norm := some (sqA.map rowNorm)
    sep_vertices := some [(1, 1), (-1, 1), (-1, -1), (1, -1)] }

lemma min?_isSome {l : List ℝ} (h : l ≠ []) : ∃ m, l.min? = some m := by
  cases l with
  | nil => exact absurd rfl h
  | cons x xs => exact ⟨_, List.min?_cons'⟩

lemma min?_spec {l : List ℝ} {m : ℝ} (h : l.min? = some m) :
    m ∈ l ∧ ∀ y ∈ l, m ≤ y := by
  constructor
  · exact List.min?_mem (fun a b => min_choice a b) h
  · intro y hy
    exact (List.le_min?_iff (fun _ _ _ => le_min_iff) h).mp le_rfl y hy

/-- C5: a freshly constructed stance (no `compute_static_equilibrium_polygon`
call since its derived state was set up) answers `dist_to_sep_edge` with the
`StaleState` condition, not a value and not an unrelated error. -/
theorem dist_stale_state (com : PointMass)
    (lf rf lh rh : Option Contact) (q : Vec3) :
    ((Stance.init com lf rf lh rh).dist_to_sep_edge q).1
      = Except.error StanceError.StaleState := rfl

/-- C8: saving a stance and loading the saved record reproduces every
contact role exactly (engaged roles keep their shape, friction and pose,
absent roles stay absent) and reproduces the saved COM position. -/
theorem stance_save_load_roundtrip (st st0 : Stance) :
    (st0.load st.save).left_foot = st.left_foot ∧
    (st0.load st.save).right_foot = st.right_foot ∧
    (st0.load st.save).left_hand = st.left_hand ∧
    (st0.load st.save).right_hand = st.right_hand ∧
    (st0.load st.save).com.p = st.com.p := by
  obtain ⟨c, dt, lf, lh, rf, rh, sh, sn, sv⟩ := st
  refine ⟨?_, ?_, ?_, ?_, rfl⟩
  · cases lf <;> rfl
  · cases rf <;> rfl
  · cases lh <;> rfl
  · cases rh <;> rfl

/-- C9: `find_static_supporting_wrenches` hands the supporting-wrench finder
the target wrench `(0, 0, mass * 9.81, 0, 0, 0)` and the COM position, and
returns the finder's contact-to-wrench mapping unchanged. -/
theorem static_wrench_spec
    (fsw : (Fin 6 → ℝ) → Vec3 → List Contact →
      Except StanceError (List (Contact × (Fin 6 → ℝ))))
    (st : Stance) :
    (st.find_static_supporting_wrenches fsw).1
      = fsw (staticWrench st.com.mass) st.com.p st.contacts ∧
    ∀ i : Fin 6, staticWrench st.com.mass i
      = if i = 2 then st.com.mass * 9.81 else 0 := by
  refine ⟨rfl, ?_⟩
  intro i
  fin_cases i <;> rfl

/-- C10: the four query operations (`compute_pendular_accel_cone`,
`compute_zmp_support_area`, `dist_to_sep_edge`,
`find_static_supporting_wrenches`) leave the whole stance state unchanged:
the cached `sep_hrep`, `sep_norm` and `sep_vertices` fields, the COM target
and all four contact role slots; only `compute_static_equilibrium_polygon`
writes the cached fields. -/
theorem stance_frame_effects (st : Stance)
    (hullFn : List (ℝ × ℝ) → List ℝ → Except Unit (List (ℝ × ℝ)))
    (cwcFn : List Contact → List (Vec3 × Vec3))
    (cv : Option (List Vec3)) (zm : Option ℝ) (red : Bool)
    (n k : ℕ)
    (projFn : Matrix (Fin 2) (Fin n) ℝ × (Fin 2 → ℝ) →
      Matrix (Fin k) (Fin n) ℝ × (Fin k → ℝ) →
      Matrix (Fin 4) (Fin n) ℝ × (Fin 4 → ℝ) →
      Except StanceError (List (ℝ × ℝ)))
    (graspFn : List Contact → Matrix (Fin 6) (Fin n) ℝ)
    (ineqFn : List Contact → Matrix (Fin k) (Fin n) ℝ)
    (plane q : Vec3)
    (fsw : (Fin 6 → ℝ) → Vec3 → List Contact →
      Except StanceError (List (Contact × (Fin 6 → ℝ)))) :
    (st.compute_pendular_accel_cone hullFn cwcFn cv zm red).2 = st ∧
    (st.compute_zmp_support_area projFn graspFn ineqFn plane).2 = st ∧
    (st.dist_to_sep_edge q).2 = st ∧
    (st.find_static_supporting_wrenches fsw).2 = st :=
  ⟨rfl, rfl, rfl, rfl⟩

/-- C2: when the 2D dual hull succeeds, `compute_pendular_accel_cone` with
`reduced = False` returns exactly the gravity vector followed by the
expansion `(a*(g+zdd), b*(g+zdd), zdd)` of each reduced-hull vertex
`(a, b)`, with `zdd = zdd_max` when supplied (`g` otherwise); with
`reduced = True` it returns the raw 2D reduced hull. -/
theorem pendular_cone_output_spec
    (hullFn : List (ℝ × ℝ) → List ℝ → Except Unit (List (ℝ × ℝ)))
    (cwcFn : List Contact → List (Vec3 × Vec3))
    (st : Stance) (cvs : List Vec3) (H : List (ℝ × ℝ))
    (h : hullFn (pendularB2d (cwcFn st.contacts) cvs)
      (pendularSigma (cwcFn st.contacts) cvs) = Except.ok H)
    (zm : Option ℝ) :
    (st.compute_pendular_accel_cone hullFn cwcFn (some cvs) zm false).1
      = Except.ok (Sum.inr (gravityVec :: H.map (fun ab =>
          Vec3.mk (ab.1 * (gconst + zm.getD gconst))
            (ab.2 * (gconst + zm.getD gconst)) (zm.getD gconst)))) ∧
    (st.compute_pendular_accel_cone hullFn cwcFn (some cvs) zm true).1
      = Except.ok (Sum.inl H) := by
  constructor <;>
    simp [Stance.compute_pendular_accel_cone, h, Except.map, Except.mapError,
      expand_reduced_pendular_cone]

/-- Witness for C2 at a concrete hull with one vertex and `zdd_max = 1`. -/
theorem pendular_cone_output_witness :
    (stV.compute_pendular_accel_cone wHullOk wCwc (some [⟨0, 0, 0⟩])
        (some 1) false).1
      = Except.ok (Sum.inr [gravityVec,
          ⟨1 * (gconst + 1), 2 * (gconst + 1), 1⟩]) ∧
    (stV.compute_pendular_accel_cone wHullOk wCwc (some [⟨0, 0, 0⟩])
        (some 1) true).1
      = Except.ok (Sum.inl [(1, 2)]) := by
  have h := pendular_cone_output_spec wHullOk wCwc stV [⟨0, 0, 0⟩]
    [(1, 2)] rfl (some 1)
  exact ⟨by simpa using h.1, h.2⟩

/-- C6: when the 2D dual hull cannot be formed (the `QhullError` case of the
external hull routine), `compute_pendular_accel_cone` fails with the
`ProjectionFailed` condition; the `Except` result carries no partially
built cone. -/
theorem pendular_hull_failure
    (hullFn : List (ℝ × ℝ) → List ℝ → Except Unit (List (ℝ × ℝ)))
    (cwcFn : List Contact → List (Vec3 × Vec3))
    (st : Stance) (cv : Option (List Vec3)) (zm : Option ℝ) (red : Bool)
    (h : hullFn (pendularB2d (cwcFn st.contacts) (cv.getD [st.com.p]))
      (pendularSigma (cwcFn st.contacts) (cv.getD [st.com.p]))
        = Except.error ()) :
    (st.compute_pendular_accel_cone hullFn cwcFn cv zm red).1
      = Except.error StanceError.ProjectionFailed := by
  simp [Stance.compute_pendular_accel_cone, h, Except.map, Except.mapError]

/-- Witness for C6 at a concretely failing hull function. -/
theorem pendular_hull_failure_witness :
    (stV.compute_pendular_accel_cone wHullFail wCwc none none false).1
      = Except.error StanceError.ProjectionFailed :=
  pendular_hull_failure wHullFail wCwc stV none none false rfl

/-- C7: on a stance whose four contact role slots are all absent, the
equilibrium-polygon calculator fails with the `InsufficientContacts`
condition instead of returning a polygon. -/
theorem sep_empty_contacts
    (proj : List Contact → List (ℝ × ℝ))
    (hs : List (ℝ × ℝ) → List (ℝ × ℝ) × List ℝ)
    (st : Stance)
    (h1 : st.left_foot = none) (h2 : st.left_hand = none)
    (h3 : st.right_foot = none) (h4 : st.right_hand = none) :
    (st.compute_static_equilibrium_polygon proj hs).1
      = Except.error StanceError.InsufficientContacts := by
  simp [Stance.compute_static_equilibrium_polygon, contactSetSEP,
    Stance.contacts, h1, h2, h3, h4]

/-- Witness for C7 at a concrete contact-free stance. -/
theorem sep_empty_contacts_witness :
    (stV.compute_static_equilibrium_polygon wProj wHs).1
      = Except.error StanceError.InsufficientContacts :=
  sep_empty_contacts wProj wHs stV rfl rfl rfl rfl

lemma polygonOf_append {S S' : List (ℝ × ℝ)} {s s' : List ℝ}
    (h : S.length = s.length) :
    polygonOf (S ++ S') (s ++ s') = polygonOf S s ∩ polygonOf S' s' := by
  ext ab
  simp only [polygonOf, Set.mem_setOf_eq, Set.mem_inter_iff,
    List.zip_append h, List.mem_append, or_imp, forall_and]

/-- C4: the stacked dual system for two COM sample points defines exactly
the intersection of the two single-point reduced regions; consequently the
expanded 3D acceleration cone computed from both points is a subset of the
cone computed from either point alone. -/
theorem pendular_cone_conservative (cwc : List (Vec3 × Vec3))
    (v1 v2 : Vec3) (zm : Option ℝ) :
    pendularFeasibleSet cwc [v1, v2]
      = pendularFeasibleSet cwc [v1] ∩ pendularFeasibleSet cwc [v2] ∧
    expandConeSet (pendularFeasibleSet cwc [v1, v2]) zm
      ⊆ expandConeSet (pendularFeasibleSet cwc [v1]) zm ∧
    expandConeSet (pendularFeasibleSet cwc [v1, v2]) zm
      ⊆ expandConeSet (pendularFeasibleSet cwc [v2]) zm := by
  have e1 : pendularB2d cwc [v1, v2]
      = pendularB2d cwc [v1] ++ pendularB2d cwc [v2] := by
    simp [pendularB2d]
  have e2 : pendularSigma cwc [v1, v2]
      = pendularSigma cwc [v1] ++ pendularSigma cwc [v2] := by
    simp [pendularSigma]
  have hlen : (pendularB2d cwc [v1]).length = (pendularSigma cwc [v1]).length := by
    simp [pendularB2d, pendularSigma, pendularB, pendularC]
  have h12 : pendularFeasibleSet cwc [v1, v2]
      = pendularFeasibleSet cwc [v1] ∩ pendularFeasibleSet cwc [v2] := by
    unfold pendularFeasibleSet
    rw [e1, e2, polygonOf_append hlen]
  have mono : ∀ S T : Set (ℝ × ℝ), S ⊆ T →
      expandConeSet S zm ⊆ expandConeSet T zm := by
    intro S T hST
    exact Set.insert_subset_insert (Set.image_subset _ hST)
  refine ⟨h12, ?_, ?_⟩
  · apply mono
    rw [h12]
    exact Set.inter_subset_left
  · apply mono
    rw [h12]
    exact Set.inter_subset_right

lemma zmp_scale_subset {n k : ℕ} (F : Matrix (Fin k) (Fin n) ℝ)
    (G : Matrix (Fin 6) (Fin n) ℝ) (c : Vec3) (z : ℝ) {m1 m2 : ℝ}
    (h1 : 0 < m1) (h2 : 0 < m2) :
    zmpSupportSet F G c z m1 ⊆ zmpSupportSet F G c z m2 := by
  rintro y ⟨x, hF, hC, hy⟩
  have h1' : m1 ≠ 0 := ne_of_gt h1
  have h2' : m2 ≠ 0 := ne_of_gt h2
  refine ⟨(m2 / m1) • x, ?_, ?_, ?_⟩
  · intro i
    rw [Matrix.mulVec_smul]
    have hnn : 0 ≤ m2 / m1 := (div_pos h2 h1).le
    simp only [Pi.smul_apply, smul_eq_mul]
    exact mul_nonpos_iff.mpr (Or.inl ⟨hnn, hF i⟩)
  · simp only [zmpC, Matrix.mulVec_smul, Matrix.smul_mulVec_assoc,
      smul_smul] at hC ⊢
    have hco : m2 / m1 * (1 / (m2 * 9.81)) = 1 / (m1 * 9.81) := by
      field_simp
      ring
    rw [hco]
    exact hC
  · rw [hy]
    simp only [zmpE, Matrix.mulVec_smul, Matrix.smul_mulVec_assoc, smul_smul]
    have hco : m2 / m1 * ((z - c.z) / (m2 * 9.81)) = (z - c.z) / (m1 * 9.81) := by
      field_simp
      ring
    rw [hco]

/-- C3: the ZMP support area does not depend on the internal mass constant:
for any two strictly positive mass values the projected feasible set built
by `compute_zmp_support_area` is the same (the mass rescales the equality
matrix `C` and the projection matrix `E`, and the feasible wrenches rescale
correspondingly). -/
theorem zmp_mass_invariance (n k : ℕ) (F : Matrix (Fin k) (Fin n) ℝ)
    (G : Matrix (Fin 6) (Fin n) ℝ) (c : Vec3) (z m1 m2 : ℝ)
    (h1 : 0 < m1) (h2 : 0 < m2) :
    zmpSupportSet F G c z m1 = zmpSupportSet F G c z m2 :=
  Set.Subset.antisymm (zmp_scale_subset F G c z h1 h2)
    (zmp_scale_subset F G c z h2 h1)

/-- Witness for C3 at concrete matrices and the source's mass 42 against
mass 1. -/
theorem zmp_mass_invariance_witness :
    0 < (42 : ℝ) ∧ 0 < (1 : ℝ) ∧
    zmpSupportSet (0 : Matrix (Fin 1) (Fin 1) ℝ)
        (0 : Matrix (Fin 6) (Fin 1) ℝ) ⟨0, 0, 0⟩ 0 42
      = zmpSupportSet (0 : Matrix (Fin 1) (Fin 1) ℝ)
        (0 : Matrix (Fin 6) (Fin 1) ℝ) ⟨0, 0, 0⟩ 0 1 :=
  ⟨by norm_num, by norm_num,
    zmp_mass_invariance 1 1 0 0 ⟨0, 0, 0⟩ 0 42 1 (by norm_num) (by norm_num)⟩

lemma rowNorm_pos {a : ℝ × ℝ} (h : a ≠ (0, 0)) : 0 < rowNorm a := by
  apply Real.sqrt_pos.mpr
  have h' : a.1 ≠ 0 ∨ a.2 ≠ 0 := by
    by_contra hc
    push_neg at hc
    exact h (Prod.ext hc.1 hc.2)
  rcases h' with h' | h'
  · have := pow_two_pos_of_ne_zero h'
    nlinarith [sq_nonneg a.2]
  · have := pow_two_pos_of_ne_zero h'
    nlinarith [sq_nonneg a.1]

lemma algDists_cons (a : ℝ × ℝ) (A : List (ℝ × ℝ)) (bi : ℝ) (b : List ℝ)
    (nm : ℝ) (ns : List ℝ) (cx cy : ℝ) :
    algDists (a :: A) (bi :: b) (nm :: ns) cx cy
      = ((bi - (a.1 * cx + a.2 * cy)) / nm) :: algDists A b ns cx cy := rfl

lemma algDists_eq (A : List (ℝ × ℝ)) :
    ∀ b : List ℝ, b.length = A.length → ∀ cx cy : ℝ,
    algDists A b (A.map rowNorm) cx cy
      = (A.zip b).map
          (fun p => (p.2 - (p.1.1 * cx + p.1.2 * cy)) / rowNorm p.1) := by
  induction A with
  | nil =>
    intro b h cx cy
    simp [algDists]
  | cons a A ih =>
    intro b h cx cy
    cases b with
    | nil => simp at h
    | cons bi b =>
      have h' : b.length = A.length := by simpa using h
      simp only [List.map_cons, algDists_cons, List.zip_cons_cons]
      rw [ih b h' cx cy]

/-- C1: once the half-space form `(A, b)` and per-row norms have been
cached, `dist_to_sep_edge` returns the minimum over all rows of
`(b_i - A_i · com_xy) / rowNorm A_i` where `com_xy` is the horizontal part
of the query point; the value is strictly positive when the point strictly
satisfies all half-space rows, strictly negative when it violates one, and
zero on the boundary (all rows satisfied, at least one with equality — in
particular at every polygon vertex). -/
theorem sep_dist_spec (st : Stance) (A : List (ℝ × ℝ)) (b : List ℝ)
    (q : Vec3)
    (hA : st.sep_hrep = some (A, b))
    (hN : st.sep_norm = some (A.map rowNorm))
    (hlen : b.length = A.length)
    (hne : A ≠ [])
    (hrows : ∀ a ∈ A, a ≠ ((0 : ℝ), (0 : ℝ))) :
    ∃ d, (st.dist_to_sep_edge q).1 = Except.ok d ∧
      (∀ p ∈ A.zip b,
        d ≤ (p.2 - (p.1.1 * q.x + p.1.2 * q.y)) / rowNorm p.1) ∧
      (∃ p ∈ A.zip b,
        d = (p.2 - (p.1.1 * q.x + p.1.2 * q.y)) / rowNorm p.1) ∧
      ((∀ p ∈ A.zip b, p.1.1 * q.x + p.1.2 * q.y < p.2) → 0 < d) ∧
      ((∃ p ∈ A.zip b, p.2 < p.1.1 * q.x + p.1.2 * q.y) → d < 0) ∧
      ((∀ p ∈ A.zip b, p.1.1 * q.x + p.1.2 * q.y ≤ p.2) →
        (∃ p ∈ A.zip b, p.1.1 * q.x + p.1.2 * q.y = p.2) → d = 0) := by
  have hzipne : A.zip b ≠ [] := by
    cases A with
    | nil => exact absurd rfl hne
    | cons a A =>
      cases b with
      | nil => simp at hlen
      | cons bi b => simp [List.zip_cons_cons]
  have hLne :
      ((A.zip b).map
        (fun p => (p.2 - (p.1.1 * q.x + p.1.2 * q.y)) / rowNorm p.1)) ≠ [] :=
    fun hc => hzipne (List.map_eq_nil_iff.mp hc)
  obtain ⟨m, hm⟩ := min?_isSome hLne
  obtain ⟨hmem, hle⟩ := min?_spec hm
  have hres : (st.dist_to_sep_edge q).1 = Except.ok m := by
    show distToSepEdgeResult st q = _
    unfold distToSepEdgeResult
    rw [hA, hN]
    simp only
    rw [algDists_eq A b hlen, hm]
  refine ⟨m, hres, ?_, ?_, ?_, ?_, ?_⟩
  · intro p hp
    exact hle _ (List.mem_map_of_mem _ hp)
  · obtain ⟨p, hp, hpd⟩ := List.mem_map.mp hmem
    exact ⟨p, hp, hpd.symm⟩
  · intro hstrict
    obtain ⟨p, hp, hpd⟩ := List.mem_map.mp hmem
    have hpos : 0 < (p.2 - (p.1.1 * q.x + p.1.2 * q.y)) / rowNorm p.1 :=
      div_pos (sub_pos.mpr (hstrict p hp))
        (rowNorm_pos (hrows p.1 (List.of_mem_zip hp).1))
    exact hpd ▸ hpos
  · rintro ⟨p, hp, hlt⟩
    have hneg : (p.2 - (p.1.1 * q.x + p.1.2 * q.y)) / rowNorm p.1 < 0 :=
      div_neg_of_neg_of_pos (sub_neg.mpr hlt)
        (rowNorm_pos (hrows p.1 (List.of_mem_zip hp).1))
    exact lt_of_le_of_lt (hle _ (List.mem_map_of_mem _ hp)) hneg
  · intro hall hex
    obtain ⟨p, hp, hpd⟩ := List.mem_map.mp hmem
    have h0 : 0 ≤ m :=
      hpd ▸ div_nonneg (sub_nonneg.mpr (hall p hp))
        (rowNorm_pos (hrows p.1 (List.of_mem_zip hp).1)).le
    obtain ⟨p0, hp0, he⟩ := hex
    have hD0 : (p0.2 - (p0.1.1 * q.x + p0.1.2 * q.y)) / rowNorm p0.1 = 0 := by
      rw [he, sub_self, zero_div]
    have hm0 : m ≤ 0 := hD0 ▸ hle _ (List.mem_map_of_mem _ hp0)
    linarith

/-- Witness for C1: the query point `(1, 0)` lies on the boundary of the
unit-square polygon, where the signed distance evaluates to zero. -/
theorem sep_dist_witness :
    ∃ d, (stW.dist_to_sep_edge ⟨1, 0, 0⟩).1 = Except.ok d ∧ d = 0 := by
  obtain ⟨d, hok, _, _, _, _, hz⟩ :=
    sep_dist_spec stW sqA sqb ⟨1, 0, 0⟩ rfl rfl (by simp [sqA, sqb])
      (by simp [sqA])
      (by
        intro a ha
        simp only [sqA, List.mem_cons, List.not_mem_nil, or_false] at ha
        rcases ha with rfl | rfl | rfl | rfl <;> norm_num [Prod.ext_iff])
  refine ⟨d, hok, hz ?_ ?_⟩
  · intro p hp
    simp only [sqA, sqb, List.zip_cons_cons, List.zip_nil_right,
      List.mem_cons, List.not_mem_nil, or_false] at hp
    rcases hp with rfl | rfl | rfl | rfl <;> norm_num
  · refine ⟨((1, 0), 1), ?_, by norm_num⟩
    simp [sqA, sqb]
